import Mathlib

/-!
Verification of the context-launcher core: a shallow embedding of the
launcher contract, the launcher factory, the workflow executor and the
window manager, translated from `src/context_launcher`.  OS effects
(filesystem checks, process spawning, window enumeration) are supplied by
explicit environment records; Python exception control flow is made
explicit with `Except`.
-/

namespace CtxLauncher

/-- Python exception values that occur in the launcher code.  All of the
constructors model classes deriving from `Exception`; `fileNotFound` models
`FileNotFoundError`, `execNotFound` models `ExecutableNotFoundError`,
`configError` models `ConfigurationError` (both subclasses of `LaunchError`),
`noSuchProcess` and `accessDenied` model the two psutil errors, and `other`
covers any remaining `Exception` (TypeError, KeyError, AttributeError, ...). -/
inductive Exn where
  | fileNotFound (msg : String)
  | execNotFound (msg : String)
  | configError (msg : String)
  | launchError (msg : String)
  | valueError (msg : String)
  | notImplementedError (msg : String)
  | noSuchProcess (msg : String)
  | accessDenied (msg : String)
  | other (msg : String)
deriving DecidableEq

/-- `str(e)` of a Python exception constructed with a single message. -/
def Exn.msg : Exn → String
  | .fileNotFound m => m
  | .execNotFound m => m
  | .configError m => m
  | .launchError m => m
  | .valueError m => m
  | .notImplementedError m => m
  | .noSuchProcess m => m
  | .accessDenied m => m
  | .other m => m

/-- `except FileNotFoundError` catches exactly this constructor. -/
def Exn.isFileNotFound : Exn → Bool
  | .fileNotFound _ => true
  | _ => false

/-- `except ExecutableNotFoundError` catches exactly this constructor. -/
def Exn.isExecNotFound : Exn → Bool
  | .execNotFound _ => true
  | _ => false

/-- `except (psutil.NoSuchProcess, psutil.AccessDenied)` catches these two. -/
def Exn.isPsutilErr : Exn → Bool
  | .noSuchProcess _ => true
  | .accessDenied _ => true
  | _ => false

/-- Dynamically typed Python values, as stored in the `parameters` dict of a
`LaunchConfig` (strings, booleans, ints, lists, dicts, `None`). -/
inductive PyVal where
  | pynone
  | str (s : String)
  | bool (b : Bool)
  | int (n : Int)
  | list (xs : List PyVal)
  | dict (kvs : List (String × PyVal))

/-- Python truthiness (`if v:`). -/
def PyVal.truthy : PyVal → Bool
  | .pynone => false
  | .str s => !s.isEmpty
  | .bool b => b
  | .int n => n != 0
  | .list xs => !xs.isEmpty
  | .dict kvs => !kvs.isEmpty

/-- `str(v)` as used by f-string interpolation of a parameter value. -/
def PyVal.pyStr : PyVal → String
  | .pynone => "None"
  | .str s => s
  | .bool b => if b then "True" else "False"
  | .int n => toString n
  | .list _ => "[...]"
  | .dict _ => "{...}"

/-- `v == "s"` for a Python value compared against a string literal
(non-strings never compare equal to a string). -/
def PyVal.isStrEq (v : PyVal) (s : String) : Bool :=
  match v with
  | .str t => t == s
  | _ => false

/-- `d.get(key, default)` on a parameters dict. -/
def paramsGet (ps : List (String × PyVal)) (k : String) (d : PyVal) : PyVal :=
  match ps.lookup k with
  | some v => v
  | none => d

/-- `AppType` from `launchers/base.py` (it has no `UWP` member). -/
inductive AppType where
  | browser
  | editor
  | communication
  | generic
deriving DecidableEq

/-- `AppType(s)`: the enum constructor raises `ValueError` for a string that
is not one of the member values. -/
def AppType.ofString (s : String) : Except Exn AppType :=
  if s == "browser" then .ok .browser
  else if s == "editor" then .ok .editor
  else if s == "communication" then .ok .communication
  else if s == "generic" then .ok .generic
  else .error (.valueError ("'" ++ s ++ "' is not a valid AppType"))

/-- `LaunchConfig` from `launchers/base.py`. -/
structure LaunchConfig where
  app_type : AppType
  app_name : String
  parameters : List (String × PyVal)
  platform : String

/-- `LaunchResult` from `launchers/base.py`. -/
structure LaunchResult where
  success : Bool
  message : String
  process_id : Option Nat := none
  error : Option Exn := none
deriving DecidableEq

/-- `LaunchResult.success_result`. -/
def LaunchResult.success_result (message : String) (pid : Option Nat) : LaunchResult :=
  { success := true, message := message, process_id := pid }

/-- `LaunchResult.error_result`. -/
def LaunchResult.error_result (message : String) (e : Option Exn) : LaunchResult :=
  { success := false, message := message, error := e }

/-- The OS facilities a launcher touches: `Path(p).exists()` and
`subprocess.Popen(args, cwd=...)` (which either yields a pid or raises). -/
structure OSEnv where
  pathExists : String → Bool
  popen : List PyVal → PyVal → Except Exn Nat

/-- `Path(v).exists()`; `Path` of a non-string raises `TypeError`. -/
def OSEnv.pathExistsVal (env : OSEnv) (v : PyVal) : Except Exn Bool :=
  match v with
  | .str s => .ok (env.pathExists s)
  | _ => .error (.other ("TypeError: invalid path"))

/-- `Path(p).stem` (final path component without its suffix), used only to
build the success message of the generic launcher. -/
def pathStem (p : String) : String :=
  let comp := ((p.splitOn "/").flatMap (fun c => c.splitOn "\\")).getLastD ""
  match (comp.splitOn ".") with
  | [] => comp
  | [c] => c
  | cs => String.intercalate "." (cs.dropLast)

/-! ### GenericAppLauncher (`launchers/apps/generic.py`) -/

/-- The state a `GenericAppLauncher` holds after `__init__`. -/
structure GenericAppLauncher where
  config : LaunchConfig
  executable_path : PyVal
  arguments : PyVal
  working_directory : PyVal

/-- `GenericAppLauncher.__init__`: reads `executable_path` (default `""`),
`arguments` (default `[]`) and `working_directory` (default `None`) from the
config parameters. -/
def GenericAppLauncher.init (cfg : LaunchConfig) : GenericAppLauncher :=
  { config := cfg
    executable_path := paramsGet cfg.parameters "executable_path" (.str "")
    arguments := paramsGet cfg.parameters "arguments" (.list [])
    working_directory := paramsGet cfg.parameters "working_directory" .pynone }

/-- `GenericAppLauncher.get_executable_path` returns the stored path. -/
def GenericAppLauncher.get_executable_path (L : GenericAppLauncher) : PyVal :=
  L.executable_path

/-- `GenericAppLauncher.validate_config`: raises `ConfigurationError` when
the executable path is falsy, `ExecutableNotFoundError` when it does not
exist, `ConfigurationError` when a given working directory does not exist;
returns `True` otherwise. -/
def GenericAppLauncher.validate_config (L : GenericAppLauncher) (env : OSEnv) :
    Except Exn Bool :=
  if !L.executable_path.truthy then
    .error (.configError ("Executable path is required"))
  else
    match env.pathExistsVal L.get_executable_path with
    | .error e => .error e
    | .ok ex =>
      if !ex then
        .error (.execNotFound ("Executable not found: " ++ L.get_executable_path.pyStr))
      else
        if L.working_directory.truthy then
          match env.pathExistsVal L.working_directory with
          | .error e => .error e
          | .ok wdex =>
            if !wdex then
              .error (.configError ("Working directory does not exist: " ++ L.working_directory.pyStr))
            else
              .ok true
        else
          .ok true

/-- Python `s.split()`: split on whitespace runs, dropping empty pieces. -/
def pySplit (s : String) : List String :=
  (s.split (fun c => c.isWhitespace)).filter (fun p => !p.isEmpty)

/-- `GenericAppLauncher._build_command_args`. -/
def GenericAppLauncher.build_command_args (L : GenericAppLauncher) : List PyVal :=
  let args := [L.executable_path]
  if L.arguments.truthy then
    match L.arguments with
    | .str s => args ++ (pySplit s).map PyVal.str
    | .list xs => args ++ xs
    | _ => args
  else
    args

/-- The `try` body of `GenericAppLauncher.launch`: validate, build the
command, spawn. -/
def GenericAppLauncher.launch_body (L : GenericAppLauncher) (env : OSEnv) :
    Except Exn LaunchResult :=
  match L.validate_config env with
  | .error e => .error e
  | .ok v =>
    if !v then
      .ok (LaunchResult.error_result ("Invalid configuration") none)
    else
      match env.popen L.build_command_args L.working_directory with
      | .error e => .error e
      | .ok pid =>
        let app_name := pathStem L.executable_path.pyStr
        .ok (LaunchResult.success_result ("Successfully launched " ++ app_name) (some pid))

/-- `GenericAppLauncher.launch`: `except FileNotFoundError` re-raises
`ExecutableNotFoundError` (an exception DOES escape on this path), while
`except Exception` turns any other exception into a failed
`LaunchResult`. -/
def GenericAppLauncher.launch (L : GenericAppLauncher) (env : OSEnv) :
    Except Exn LaunchResult :=
  match L.launch_body env with
  | .ok r => .ok r
  | .error e =>
    if e.isFileNotFound then
      .error (.execNotFound ("Executable not found: " ++ L.executable_path.pyStr))
    else
      .ok (LaunchResult.error_result ("Launch failed: " ++ e.msg) (some e))

/-! ### BrowserLauncher (`launchers/browsers/base_browser.py`)

Subclass hooks (`get_executable_path`, `_get_profile_args`,
`_get_new_window_args`) are abstracted as fields of the launcher record;
the base class behavior is `profile_args = []`, `new_window_args =
["--new-window"]`. -/

/-- The state a `BrowserLauncher` holds after `__init__`, plus the three
subclass hook results. -/
structure BrowserLauncher where
  config : LaunchConfig
  tabs : PyVal
  profile : PyVal
  use_selenium : PyVal
  exe_path_result : Except Exn String
  profile_args : List String
  new_window_args : List String

/-- `BrowserLauncher.__init__`: reads `tabs` (default `[]`), `profile`
(default `""`), `use_selenium` (default `False`). -/
def BrowserLauncher.init (cfg : LaunchConfig) (exe : Except Exn String)
    (pargs nargs : List String) : BrowserLauncher :=
  { config := cfg
    tabs := paramsGet cfg.parameters "tabs" (.list [])
    profile := paramsGet cfg.parameters "profile" (.str "")
    use_selenium := paramsGet cfg.parameters "use_selenium" (.bool false)
    exe_path_result := exe
    profile_args := pargs
    new_window_args := nargs }

/-- `BrowserLauncher.validate_config`: raises `ExecutableNotFoundError` when
the executable does not exist, returns `False` when `tabs` is not a list,
`True` otherwise. -/
def BrowserLauncher.validate_config (L : BrowserLauncher) (env : OSEnv) :
    Except Exn Bool :=
  match L.exe_path_result with
  | .error e => .error e
  | .ok exe =>
    if !env.pathExists exe then
      .error (.execNotFound ("Browser executable not found: " ++ exe))
    else
      match L.tabs with
      | .list _ => .ok true
      | _ => .ok false

/-- The list comprehension `[tab['url'] for tab in tabs if tab.get('type')
== 'url']`: a non-dict tab raises `AttributeError` at `tab.get`, a selected
tab without a `url` key raises `KeyError`. -/
def collectUrls : List PyVal → Except Exn (List PyVal)
  | [] => .ok []
  | t :: ts =>
    match t with
    | .dict kvs =>
      if (paramsGet kvs "type" .pynone).isStrEq "url" then
        match kvs.lookup "url" with
        | some v =>
          match collectUrls ts with
          | .error e => .error e
          | .ok rest => .ok (v :: rest)
        | none => .error (Exn.other ("KeyError: url"))
      else
        collectUrls ts
    | _ => .error (Exn.other ("AttributeError: get"))

/-- `len(tabs)` (only reached with a list after validation). -/
def PyVal.pyLen : PyVal → Except Exn Nat
  | .list xs => .ok xs.length
  | .str s => .ok s.length
  | .dict kvs => .ok kvs.length
  | _ => .error (.other ("TypeError: has no len"))

/-- `BrowserLauncher._build_command_args`: executable, profile arguments if
a profile is set, new-window arguments, then the tab urls. -/
def BrowserLauncher.build_command_args (L : BrowserLauncher) :
    Except Exn (List PyVal) :=
  match L.exe_path_result with
  | .error e => .error e
  | .ok exe =>
    let base := [PyVal.str exe]
    let pargs := if L.profile.truthy then L.profile_args.map PyVal.str else []
    let nargs := L.new_window_args.map PyVal.str
    match L.tabs with
    | .list ts =>
      match collectUrls ts with
      | .error e => .error e
      | .ok urls => .ok (base ++ pargs ++ nargs ++ urls)
    | _ => .error (.other ("TypeError: not iterable"))

/-- `BrowserLauncher._launch_native`: builds the command, spawns it; its
inner `except FileNotFoundError` re-raises `ExecutableNotFoundError`. -/
def BrowserLauncher.launch_native (L : BrowserLauncher) (env : OSEnv) :
    Except Exn LaunchResult :=
  match L.build_command_args with
  | .error e => .error e
  | .ok args =>
    match env.popen args .pynone with
    | .error e =>
      if e.isFileNotFound then
        let first := (args.headD (PyVal.str "")).pyStr
        .error (Exn.execNotFound ("Executable not found: " ++ first))
      else
        .error e
    | .ok pid =>
      match L.tabs.pyLen with
      | .error e => .error e
      | .ok n =>
        .ok (LaunchResult.success_result
          ("Successfully launched " ++ L.config.app_name ++ " with " ++ toString n ++ " tab(s)")
          (some pid))

/-- `BrowserLauncher._launch_with_selenium` raises `NotImplementedError`. -/
def BrowserLauncher.launch_with_selenium : Except Exn LaunchResult :=
  .error (.notImplementedError ("Selenium support is optional. Install with: pip install selenium"))

/-- The `try` body of `BrowserLauncher.launch`: validate, then native or
selenium launch. -/
def BrowserLauncher.launch_body (L : BrowserLauncher) (env : OSEnv) :
    Except Exn LaunchResult :=
  match L.validate_config env with
  | .error e => .error e
  | .ok v =>
    if !v then
      .ok (LaunchResult.error_result ("Invalid configuration") none)
    else
      if L.use_selenium.truthy then
        BrowserLauncher.launch_with_selenium
      else
        L.launch_native env

/-- `BrowserLauncher.launch`: `except ExecutableNotFoundError` and
`except Exception` both return failed `LaunchResult`s, so no exception
escapes. -/
def BrowserLauncher.launch (L : BrowserLauncher) (env : OSEnv) :
    Except Exn LaunchResult :=
  match L.launch_body env with
  | .ok r => .ok r
  | .error e =>
    if e.isExecNotFound then
      .ok (LaunchResult.error_result (e.msg) (some e))
    else
      .ok (LaunchResult.error_result ("Launch failed: " ++ e.msg) (some e))

/-! ### LauncherFactory (`launchers/factory.py`) -/

/-- The concrete launcher classes the factory can instantiate. -/
inductive LauncherKind where
  | chrome
  | firefox
  | edge
  | vscode
  | slack
  | spotify
  | generic
  | uwp
deriving DecidableEq

/-- The initial `LauncherFactory._registry` (the `uwp` entry is added only
on win32). -/
def defaultRegistry (isWin32 : Bool) : List (String × LauncherKind) :=
  [("chrome", .chrome), ("firefox", .firefox), ("edge", .edge),
   ("vscode", .vscode), ("slack", .slack), ("spotify", .spotify),
   ("generic", .generic)] ++ (if isWin32 then [("uwp", .uwp)] else [])

/-- Python `s.lower()` (character-wise). -/
def pyLower (s : String) : String :=
  String.mk (s.data.map Char.toLower)

/-- `LauncherFactory.create_launcher`: registry lookup by lowercased app
name; on win32 an app name present in `UWP_APP_REGISTRY` gets the UWP
launcher (the `AppType.UWP` test in the source is dead code because
`AppType` has no `UWP` member); every other unregistered name falls back to
`GenericAppLauncher`. -/
def create_launcher (registry : List (String × LauncherKind)) (isWin32 : Bool)
    (uwpApps : List String) (cfg : LaunchConfig) : LauncherKind :=
  let app_name := pyLower cfg.app_name
  match registry.lookup app_name with
  | some k => k
  | none =>
    if isWin32 && uwpApps.contains app_name then
      .uwp
    else
      .generic

/-! ### Workflow data model (`core/session.py`) -/

/-- `LaunchConfiguration` from `core/session.py` (the pydantic model the
persistence layer stores; `app_type` is a raw string there). -/
structure LaunchConfiguration where
  app_type : String
  app_name : String
  parameters : List (String × PyVal)

/-- The fields of `Session` the workflow executor reads. -/
structure Session where
  id : String
  name : String
  launch_config : LaunchConfiguration

/-- `WorkflowStep` from `core/session.py`. -/
structure WorkflowStep where
  order : Int
  delay_ms : Int := 0
  session_ref : Option String := none
  inline_config : Option LaunchConfiguration := none
  continue_on_failure : Bool := true
  description : String := ""

/-- The fields of `Workflow` the executor reads. -/
structure Workflow where
  id : String
  name : String
  launch_sequence : List WorkflowStep

/-! ### WorkflowExecutor (`core/workflow_executor.py`) -/

/-- `StepStatus` from `core/workflow_executor.py`. -/
inductive StepStatus where
  | pending
  | running
  | success
  | failed
  | skipped
deriving DecidableEq

/-- `WorkflowStepResult` (the `elapsed_ms` wall-clock field is fixed to 0
in this timing-free embedding). -/
structure WorkflowStepResult where
  step_index : Nat
  step : WorkflowStep
  status : StepStatus
  launch_result : Option LaunchResult := none
  error_message : Option String := none
  elapsed_ms : Int := 0

/-- `WorkflowExecutionResult`. -/
structure WorkflowExecutionResult where
  workflow_id : String
  workflow_name : String
  status : StepStatus
  step_results : List WorkflowStepResult
  total_elapsed_ms : Int
  successful_steps : Nat
  failed_steps : Nat
  skipped_steps : Nat

/-- Observable side effects of a workflow run: a `launched i a` event is
recorded when the launcher created for step index `i` (app name `a`) has
its `launch()` invoked, a `slept i ms` event when `time.sleep` runs after
step index `i`. -/
inductive WfEvent where
  | launched (index : Nat) (app_name : String)
  | slept (index : Nat) (ms : Int)
deriving DecidableEq

/-- The environment of a workflow run: the platform string and the combined
behavior of `LauncherFactory.create_launcher` + `launcher.launch()` for a
resolved configuration (an exception anywhere in dispatch or launch is an
`.error`). -/
structure WfEnv where
  platform : String
  launch : LaunchConfig → Except Exn LaunchResult

/-- Truthiness of `step.session_ref` (an `Optional[str]`). -/
def optStrTruthy : Option String → Bool
  | some s => !s.isEmpty
  | none => false

/-- The resolution phase of `WorkflowExecutor._execute_step`: via session
reference (a missing reference raises `ValueError`) or inline config, else
`ValueError`; `AppType(...)` may itself raise `ValueError`. -/
def resolveLaunchConfig (env : WfEnv) (step : WorkflowStep)
    (sessions : List Session) : Except Exn LaunchConfig :=
  if optStrTruthy step.session_ref then
    let ref := step.session_ref.getD ""
    match sessions.find? (fun s => s.id == ref) with
    | none => .error (.valueError ("Session reference not found: " ++ ref))
    | some session =>
      match AppType.ofString session.launch_config.app_type with
      | .error e => .error e
      | .ok ty =>
        .ok { app_type := ty, app_name := session.launch_config.app_name,
              parameters := session.launch_config.parameters,
              platform := env.platform }
  else
    match step.inline_config with
    | some ic =>
      match AppType.ofString ic.app_type with
      | .error e => .error e
      | .ok ty =>
        .ok { app_type := ty, app_name := ic.app_name,
              parameters := ic.parameters, platform := env.platform }
    | none => .error (.valueError ("Step has neither session_ref nor inline_config"))

/-- `WorkflowExecutor._execute_step`: resolve, dispatch and launch inside a
`try`; any exception is converted to a FAILED result carrying the exception
message.  Also returns the launch events the step emitted. -/
def executeStep (env : WfEnv) (step : WorkflowStep) (index : Nat)
    (sessions : List Session) : WorkflowStepResult × List WfEvent :=
  match resolveLaunchConfig env step sessions with
  | .error e =>
    ({ step_index := index, step := step, status := .failed,
       error_message := some e.msg }, [])
  | .ok lc =>
    match env.launch lc with
    | .error e =>
      ({ step_index := index, step := step, status := .failed,
         error_message := some e.msg }, [.launched index lc.app_name])
    | .ok lr =>
      if lr.success then
        ({ step_index := index, step := step, status := .success,
           launch_result := some lr }, [.launched index lc.app_name])
      else
        ({ step_index := index, step := step, status := .failed,
           launch_result := some lr, error_message := some lr.message },
         [.launched index lc.app_name])

/-- Python `sorted`, a stable sort: insert before the first element with a
strictly larger key, so elements with equal `order` keep list order. -/
def insertStep (x : WorkflowStep) : List WorkflowStep → List WorkflowStep
  | [] => [x]
  | y :: ys => if x.order ≤ y.order then x :: y :: ys else y :: insertStep x ys

/-- `sorted(workflow.launch_sequence, key=lambda s: s.order)`. -/
def sortSteps : List WorkflowStep → List WorkflowStep
  | [] => []
  | x :: xs => insertStep x (sortSteps xs)

/-- The skip loop run after a terminating failure: every remaining step is
reported SKIPPED with the fixed message, without being launched or
delayed. -/
def markSkipped : List WorkflowStep → Nat → List WorkflowStepResult
  | [], _ => []
  | s :: ss, idx =>
    { step_index := idx, step := s, status := .skipped,
      error_message := some "Skipped due to previous failure" }
      :: markSkipped ss (idx + 1)

/-- The `for` loop of `execute_workflow` over the sorted steps: execute the
step, break (marking the rest skipped) when it failed with
`continue_on_failure` false, otherwise sleep `delay_ms` when this is not
the last step and the delay is positive. -/
def runSteps (env : WfEnv) (sessions : List Session) (total : Nat) :
    List WorkflowStep → Nat → List WorkflowStepResult × List WfEvent
  | [], _ => ([], [])
  | step :: rest, idx =>
    let re := executeStep env step idx sessions
    if re.1.status = .failed ∧ step.continue_on_failure = false then
      (re.1 :: markSkipped rest (idx + 1), re.2)
    else
      let evs2 := if idx < total - 1 ∧ step.delay_ms > 0
        then re.2 ++ [.slept idx step.delay_ms] else re.2
      let tail := runSteps env sessions total rest (idx + 1)
      (re.1 :: tail.1, evs2 ++ tail.2)

/-- The overall-status aggregation at the end of `execute_workflow`
(the first two branches of the `if` chain coincide: a partial failure is
still FAILED). -/
def overallStatus (successful failed : Nat) : StepStatus :=
  if failed > 0 ∧ successful = 0 then .failed
  else if failed > 0 then .failed
  else .success

/-- `WorkflowExecutor.execute_workflow`: sort by `order`, run the loop,
count the statuses, aggregate the overall status (`total_elapsed_ms` is
wall clock and fixed to 0 here).  Also returns the event trace. -/
def execute_workflow (env : WfEnv) (wf : Workflow) (sessions : List Session) :
    WorkflowExecutionResult × List WfEvent :=
  let sorted_steps := sortSteps wf.launch_sequence
  let res := runSteps env sessions sorted_steps.length sorted_steps 0
  let successful := res.1.countP (fun r => r.status = .success)
  let failed := res.1.countP (fun r => r.status = .failed)
  let skipped := res.1.countP (fun r => r.status = .skipped)
  ({ workflow_id := wf.id, workflow_name := wf.name,
     status := overallStatus successful failed,
     step_results := res.1, total_elapsed_ms := 0,
     successful_steps := successful, failed_steps := failed,
     skipped_steps := skipped }, res.2)

/-! ### WindowManager (`core/window_manager.py`), capture side -/

/-- `WindowState` from `core/window_manager.py`. -/
structure WindowState where
  x : Int
  y : Int
  width : Int
  height : Int
  monitor_index : Nat := 0
  is_maximized : Bool := false
  is_minimized : Bool := false
deriving DecidableEq

/-- A top-level enumeration record on Windows: handle, visibility, owning
pid, parent handle (0 for top-level) and title. -/
structure WinWindow where
  hwnd : Nat
  visible : Bool
  pid : Nat
  parent : Nat
  title : String
deriving DecidableEq

/-- `GetWindowPlacement` + `GetWindowRect` for a handle (`show_cmd` 3 is
`SW_SHOWMAXIMIZED`, 2 is `SW_SHOWMINIMIZED`). -/
structure WinPlacement where
  show_cmd : Nat
  left : Int
  top : Int
  right : Int
  bottom : Int

/-- OS data for `_get_window_state_windows`: the number of polling attempts
the timeout allows, the psutil child enumerations (initial and per
attempt), the `EnumWindows` snapshot per attempt, and the placement and
monitor-index calls for a found handle (`_get_monitor_index_windows` has
its own bare catch-all returning 0, hence total). -/
structure WinEnv where
  attempts : Nat
  initialChildren : Except Exn (List Nat)
  childrenAt : Nat → Except Exn (List Nat)
  windowsAt : Nat → List WinWindow
  getPlacement : Nat → Except Exn WinPlacement
  monitorIndexOf : Nat → Nat

/-- The `EnumWindows` callback filter: visible, pid in the collected set,
top level (`GetParent == 0`), non-empty title. -/
def winMatch (pids : List Nat) (w : WinWindow) : Bool :=
  w.visible && pids.contains w.pid && w.parent == 0 && !w.title.isEmpty

/-- One `EnumWindows` pass of `_find_window_by_pid_windows`: return the
first truthy matching handle, otherwise keep polling via `fuelRec`. -/
def findLoopAttempt (env : WinEnv) (fuelRec : List Nat → Except Exn (Option Nat))
    (attempt : Nat) (pids2 : List Nat) : Except Exn (Option Nat) :=
  match (env.windowsAt attempt).find? (winMatch pids2) with
  | some w =>
    if w.hwnd != 0 then
      .ok (some w.hwnd)
    else
      fuelRec pids2
  | none => fuelRec pids2

/-- The polling loop of `_find_window_by_pid_windows`: each attempt
refreshes the child pid set (psutil errors are swallowed), enumerates
windows and returns the first truthy match; on timeout it returns
`None`. -/
def findLoopWindows (env : WinEnv) : Nat → Nat → List Nat → Except Exn (Option Nat)
  | 0, _, _ => .ok none
  | fuel + 1, attempt, pids =>
    match env.childrenAt attempt with
    | .ok cs =>
      findLoopAttempt env (findLoopWindows env fuel (attempt + 1)) attempt (pids ++ cs)
    | .error e =>
      if e.isPsutilErr then
        findLoopAttempt env (findLoopWindows env fuel (attempt + 1)) attempt pids
      else
        .error e

/-- `_find_window_by_pid_windows`: seed the pid set with the root pid and
its children (psutil errors fall back to the root pid alone), then poll. -/
def find_window_by_pid_windows (env : WinEnv) (pid : Nat) : Except Exn (Option Nat) :=
  match env.initialChildren with
  | .ok cs => findLoopWindows env env.attempts 0 (pid :: cs)
  | .error e =>
    if e.isPsutilErr then
      findLoopWindows env env.attempts 0 [pid]
    else
      .error e

/-- `_get_window_state_windows`: find the window, read placement and rect,
build the state; the outer `except Exception` turns any raised exception
into `None`. -/
def get_window_state_windows_body (env : WinEnv) (pid : Nat) :
    Except Exn (Option WindowState) :=
  match find_window_by_pid_windows env pid with
  | .error e => .error e
  | .ok none => .ok none
  | .ok (some hwnd) =>
    if hwnd == 0 then
      .ok none
    else
      match env.getPlacement hwnd with
      | .error e => .error e
      | .ok pl =>
        .ok (some { x := pl.left, y := pl.top, width := pl.right - pl.left,
                    height := pl.bottom - pl.top,
                    monitor_index := env.monitorIndexOf hwnd,
                    is_maximized := pl.show_cmd == 3,
                    is_minimized := pl.show_cmd == 2 })

/-- The outer `except Exception` of `_get_window_state_windows` turns any
raised exception into `None`. -/
def get_window_state_windows (env : WinEnv) (pid : Nat) :
    Except Exn (Option WindowState) :=
  match get_window_state_windows_body env pid with
  | .ok r => .ok r
  | .error _ => .ok none

/-- A `CGWindowListCopyWindowInfo` record on macOS: owning pid, whether the
bounds dict is non-empty, the bounds, the window layer and the on-screen
flag. -/
structure MacWindow where
  ownerPid : Nat
  hasBounds : Bool
  x : Int
  y : Int
  width : Int
  height : Int
  layer : Int
  isOnScreen : Bool
deriving DecidableEq

/-- A monitor rectangle as produced by `_get_monitors_macos`. -/
structure MacMonitor where
  x : Int
  y : Int
  width : Int
  height : Int

/-- OS data for `_get_window_state_macos`: the psutil name lookup for the
pid, the number of polling attempts the timeout allows, the window list
snapshot per attempt and the monitor list (`_get_monitors_macos` catches
its own errors and returns a list, hence total).  Note there is no process
tree here: the macOS code never enumerates child processes in capture. -/
structure MacEnv where
  processName : Except Exn String
  attempts : Nat
  windowListAt : Nat → List MacWindow
  monitors : List MacMonitor

/-- The macOS per-window filter: owned by exactly the requested pid, with
non-empty bounds dict, non-zero size, on screen at layer 0. -/
def macMatch (pid : Nat) (w : MacWindow) : Bool :=
  w.ownerPid == pid && w.hasBounds && w.width != 0 && w.height != 0 &&
    w.isOnScreen && w.layer == 0

/-- The monitor-index scan: first monitor whose rectangle contains the
window origin, else 0. -/
def monitorIndexFor (monitors : List MacMonitor) (x y : Int) : Nat :=
  match monitors.findIdx? (fun m =>
      x ≥ m.x && y ≥ m.y && x < m.x + m.width && y < m.y + m.height) with
  | some i => i
  | none => 0

/-- The polling loop of `_get_window_state_macos`: each attempt scans the
current window list for the first match and returns its geometry (macOS
reports neither maximized nor minimized); on timeout it returns `None`. -/
def macLoop (env : MacEnv) (pid : Nat) : Nat → Nat → Except Exn (Option WindowState)
  | 0, _ => .ok none
  | fuel + 1, attempt =>
    match (env.windowListAt attempt).find? (macMatch pid) with
    | some w =>
      pure (some { x := w.x, y := w.y, width := w.width, height := w.height,
                   monitor_index := monitorIndexFor env.monitors w.x w.y,
                   is_maximized := false, is_minimized := false })
    | none => macLoop env pid fuel (attempt + 1)

/-- `_get_window_state_macos`: a psutil failure on the pid returns `None`
directly; otherwise poll; the outer `except Exception` turns any raised
exception into `None`. -/
def get_window_state_macos_body (env : MacEnv) (pid : Nat) :
    Except Exn (Option WindowState) :=
  match env.processName with
  | .error e => if e.isPsutilErr then .ok none else .error e
  | .ok _ => macLoop env pid env.attempts 0

/-- The outer `except Exception` of `_get_window_state_macos` turns any
raised exception into `None`. -/
def get_window_state_macos (env : MacEnv) (pid : Nat) :
    Except Exn (Option WindowState) :=
  match get_window_state_macos_body env pid with
  | .ok r => .ok r
  | .error _ => .ok none

/-- `WindowManager.get_window_state`: dispatch on the running platform; the
Linux implementation is a stub returning `None`. -/
def get_window_state (platform : String) (winEnv : WinEnv) (macEnv : MacEnv)
    (pid : Nat) : Except Exn (Option WindowState) :=
  if platform == "win32" then get_window_state_windows winEnv pid
  else if platform == "darwin" then get_window_state_macos macEnv pid
  else .ok none

/-! ### Lemmas about the stable sort -/

theorem insertStep_perm (x : WorkflowStep) (l : List WorkflowStep) :
    (insertStep x l).Perm (x :: l) := by
  induction l with
  | nil => simp [insertStep]
  | cons y ys ih =>
    by_cases h : x.order ≤ y.order
    · simp [insertStep, h]
    · simp only [insertStep, if_neg h]
      exact (ih.cons y).trans (List.Perm.swap x y ys)

theorem sortSteps_perm (l : List WorkflowStep) : (sortSteps l).Perm l := by
  induction l with
  | nil => simp [sortSteps]
  | cons x xs ih => exact (insertStep_perm x (sortSteps xs)).trans (ih.cons x)

theorem mem_insertStep {z x : WorkflowStep} {l : List WorkflowStep} :
    z ∈ insertStep x l ↔ z = x ∨ z ∈ l := by
  rw [(insertStep_perm x l).mem_iff, List.mem_cons]

theorem insertStep_pairwise (x : WorkflowStep) (l : List WorkflowStep)
    (h : l.Pairwise (fun a b => a.order ≤ b.order)) :
    (insertStep x l).Pairwise (fun a b => a.order ≤ b.order) := by
  induction l with
  | nil => simp [insertStep]
  | cons y ys ih =>
    rcases List.pairwise_cons.mp h with ⟨hy, hys⟩
    by_cases hx : x.order ≤ y.order
    · simp only [insertStep, if_pos hx]
      refine List.pairwise_cons.mpr ⟨?_, h⟩
      intro z hz
      rcases List.mem_cons.mp hz with rfl | hz
      · exact hx
      · exact le_trans hx (hy z hz)
    · simp only [insertStep, if_neg hx]
      refine List.pairwise_cons.mpr ⟨?_, ih hys⟩
      intro z hz
      rcases mem_insertStep.mp hz with rfl | hz
      · omega
      · exact hy z hz

theorem sortSteps_pairwise (l : List WorkflowStep) :
    (sortSteps l).Pairwise (fun a b => a.order ≤ b.order) := by
  induction l with
  | nil => simp [sortSteps]
  | cons x xs ih => exact insertStep_pairwise x (sortSteps xs) ih

/-! ### Lemmas about a single step execution -/

theorem executeStep_step (env : WfEnv) (step : WorkflowStep) (idx : Nat)
    (sessions : List Session) : (executeStep env step idx sessions).1.step = step := by
  cases h : resolveLaunchConfig env step sessions with
  | error e => simp [executeStep, h]
  | ok lc =>
    cases h2 : env.launch lc with
    | error e => simp [executeStep, h, h2]
    | ok lr => cases hs : lr.success <;> simp [executeStep, h, h2, hs]

theorem executeStep_index (env : WfEnv) (step : WorkflowStep) (idx : Nat)
    (sessions : List Session) : (executeStep env step idx sessions).1.step_index = idx := by
  cases h : resolveLaunchConfig env step sessions with
  | error e => simp [executeStep, h]
  | ok lc =>
    cases h2 : env.launch lc with
    | error e => simp [executeStep, h, h2]
    | ok lr => cases hs : lr.success <;> simp [executeStep, h, h2, hs]

theorem executeStep_status (env : WfEnv) (step : WorkflowStep) (idx : Nat)
    (sessions : List Session) :
    (executeStep env step idx sessions).1.status = .success ∨
      (executeStep env step idx sessions).1.status = .failed := by
  cases h : resolveLaunchConfig env step sessions with
  | error e => simp [executeStep, h]
  | ok lc =>
    cases h2 : env.launch lc with
    | error e => simp [executeStep, h, h2]
    | ok lr => cases hs : lr.success <;> simp [executeStep, h, h2, hs]

theorem executeStep_events (env : WfEnv) (step : WorkflowStep) (idx : Nat)
    (sessions : List Session) :
    (executeStep env step idx sessions).2 = [] ∨
      ∃ a, (executeStep env step idx sessions).2 = [WfEvent.launched idx a] := by
  cases h : resolveLaunchConfig env step sessions with
  | error e => simp [executeStep, h]
  | ok lc =>
    cases h2 : env.launch lc with
    | error e =>
      refine Or.inr ⟨lc.app_name, ?_⟩
      simp [executeStep, h, h2]
    | ok lr =>
      refine Or.inr ⟨lc.app_name, ?_⟩
      cases hs : lr.success <;> simp [executeStep, h, h2, hs]

theorem executeStep_no_slept (env : WfEnv) (step : WorkflowStep) (idx : Nat)
    (sessions : List Session) (k : Nat) (d : Int) :
    WfEvent.slept k d ∉ (executeStep env step idx sessions).2 := by
  rcases executeStep_events env step idx sessions with h | ⟨a, h⟩ <;> simp [h]

theorem executeStep_launched (env : WfEnv) (step : WorkflowStep) (idx : Nat)
    (sessions : List Session) (k : Nat) (a : String)
    (h : WfEvent.launched k a ∈ (executeStep env step idx sessions).2) : k = idx := by
  rcases executeStep_events env step idx sessions with he | ⟨b, he⟩ <;> rw [he] at h
  · simp at h
  · simp at h
    exact h.1

/-! ### Lemmas about the skip loop -/

theorem markSkipped_map_step (l : List WorkflowStep) (idx : Nat) :
    (markSkipped l idx).map (fun r => r.step) = l := by
  induction l generalizing idx with
  | nil => rfl
  | cons s ss ih => simp [markSkipped, ih]

theorem markSkipped_length (l : List WorkflowStep) (idx : Nat) :
    (markSkipped l idx).length = l.length := by
  have := congrArg List.length (markSkipped_map_step l idx)
  simpa using this

theorem markSkipped_status {r : WorkflowStepResult} {l : List WorkflowStep} {idx : Nat}
    (h : r ∈ markSkipped l idx) : r.status = .skipped := by
  induction l generalizing idx with
  | nil => simp [markSkipped] at h
  | cons s ss ih =>
    rcases List.mem_cons.mp h with rfl | h2
    · rfl
    · exact ih h2

theorem markSkipped_getElem (l : List WorkflowStep) :
    ∀ (idx i : Nat) (r : WorkflowStepResult), (markSkipped l idx)[i]? = some r →
      r.status = .skipped ∧ r.step_index = idx + i := by
  induction l with
  | nil => intro idx i r h; simp [markSkipped] at h
  | cons s ss2 ih =>
    intro idx i r h
    cases i with
    | zero =>
      rw [markSkipped, List.getElem?_cons_zero] at h
      simp only [Option.some.injEq] at h
      subst h
      exact ⟨rfl, by simp⟩
    | succ i2 =>
      rw [markSkipped, List.getElem?_cons_succ] at h
      rcases ih (idx + 1) i2 r h with ⟨h1, h2⟩
      exact ⟨h1, by omega⟩

/-! ### Lemmas about the execution loop -/

theorem runSteps_cons (env : WfEnv) (ss : List Session) (total : Nat)
    (step : WorkflowStep) (rest : List WorkflowStep) (idx : Nat) :
    runSteps env ss total (step :: rest) idx =
      (if (executeStep env step idx ss).1.status = .failed ∧ step.continue_on_failure = false then
        ((executeStep env step idx ss).1 :: markSkipped rest (idx + 1),
          (executeStep env step idx ss).2)
      else
        ((executeStep env step idx ss).1 :: (runSteps env ss total rest (idx + 1)).1,
          (if idx < total - 1 ∧ step.delay_ms > 0
            then (executeStep env step idx ss).2 ++ [WfEvent.slept idx step.delay_ms]
            else (executeStep env step idx ss).2) ++ (runSteps env ss total rest (idx + 1)).2)) :=
  rfl

theorem runSteps_map_step (env : WfEnv) (ss : List Session) (total : Nat) :
    ∀ (steps : List WorkflowStep) (idx : Nat),
      ((runSteps env ss total steps idx).1.map (fun r => r.step)) = steps := by
  intro steps
  induction steps with
  | nil => intro idx; rfl
  | cons step rest ih =>
    intro idx
    rw [runSteps_cons]
    by_cases h : (executeStep env step idx ss).1.status = .failed ∧
        step.continue_on_failure = false
    · simp [h, executeStep_step, markSkipped_map_step]
    · simp [h, executeStep_step, ih]

theorem runSteps_length (env : WfEnv) (ss : List Session) (total : Nat)
    (steps : List WorkflowStep) (idx : Nat) :
    (runSteps env ss total steps idx).1.length = steps.length := by
  have := congrArg List.length (runSteps_map_step env ss total steps idx)
  simpa using this

theorem runSteps_index (env : WfEnv) (ss : List Session) (total : Nat) :
    ∀ (steps : List WorkflowStep) (idx i : Nat) (r : WorkflowStepResult),
      (runSteps env ss total steps idx).1[i]? = some r → r.step_index = idx + i := by
  intro steps
  induction steps with
  | nil => intro idx i r h; simp [runSteps] at h
  | cons step rest ih =>
    intro idx i r h
    rw [runSteps_cons] at h
    by_cases hbrk : (executeStep env step idx ss).1.status = .failed ∧
        step.continue_on_failure = false
    · rw [if_pos hbrk] at h
      cases i with
      | zero =>
        rw [List.getElem?_cons_zero] at h
        simp only [Option.some.injEq] at h
        subst h
        have := executeStep_index env step idx ss
        omega
      | succ i2 =>
        rw [List.getElem?_cons_succ] at h
        have := (markSkipped_getElem rest (idx + 1) i2 r h).2
        omega
    · rw [if_neg hbrk] at h
      cases i with
      | zero =>
        rw [List.getElem?_cons_zero] at h
        simp only [Option.some.injEq] at h
        subst h
        have := executeStep_index env step idx ss
        omega
      | succ i2 =>
        rw [List.getElem?_cons_succ] at h
        have := ih (idx + 1) i2 r h
        omega

theorem runSteps_status (env : WfEnv) (ss : List Session) (total : Nat) :
    ∀ (steps : List WorkflowStep) (idx : Nat) (r : WorkflowStepResult),
      r ∈ (runSteps env ss total steps idx).1 →
      r.status = .success ∨ r.status = .failed ∨ r.status = .skipped := by
  intro steps
  induction steps with
  | nil => intro idx r h; simp [runSteps] at h
  | cons step rest ih =>
    intro idx r h
    rw [runSteps_cons] at h
    by_cases hbrk : (executeStep env step idx ss).1.status = .failed ∧
        step.continue_on_failure = false
    · rw [if_pos hbrk] at h
      rcases List.mem_cons.mp h with rfl | h2
      · rcases executeStep_status env step idx ss with h3 | h3 <;> simp [h3]
      · exact Or.inr (Or.inr (markSkipped_status h2))
    · rw [if_neg hbrk] at h
      rcases List.mem_cons.mp h with rfl | h2
      · rcases executeStep_status env step idx ss with h3 | h3 <;> simp [h3]
      · exact ih (idx + 1) r h2

theorem runSteps_break (env : WfEnv) (ss : List Session) (total : Nat) :
    ∀ (steps : List WorkflowStep) (idx i : Nat) (r : WorkflowStepResult),
      (runSteps env ss total steps idx).1[i]? = some r →
      r.status = .failed → r.step.continue_on_failure = false →
      (∀ j r2, (runSteps env ss total steps idx).1[j]? = some r2 → i < j →
        r2.status = .skipped) ∧
      (∀ k a, WfEvent.launched k a ∈ (runSteps env ss total steps idx).2 → k ≤ idx + i) := by
  intro steps
  induction steps with
  | nil => intro idx i r h; simp [runSteps] at h
  | cons step rest ih =>
    intro idx i r h hfail hcof
    rw [runSteps_cons] at h ⊢
    by_cases hbrk : (executeStep env step idx ss).1.status = .failed ∧
        step.continue_on_failure = false
    · rw [if_pos hbrk] at h ⊢
      cases i with
      | zero =>
        constructor
        · intro j r2 hj hij
          rcases j with _ | j2
          · omega
          · rw [List.getElem?_cons_succ] at hj
            exact (markSkipped_getElem rest (idx + 1) j2 r2 hj).1
        · intro k a hmem
          have := executeStep_launched env step idx ss k a hmem
          omega
      | succ i2 =>
        exfalso
        rw [List.getElem?_cons_succ] at h
        have := (markSkipped_getElem rest (idx + 1) i2 r h).1
        rw [hfail] at this
        exact StepStatus.noConfusion this
    · rw [if_neg hbrk] at h ⊢
      cases i with
      | zero =>
        exfalso
        rw [List.getElem?_cons_zero] at h
        simp only [Option.some.injEq] at h
        apply hbrk
        constructor
        · rw [h]; exact hfail
        · have hstep := executeStep_step env step idx ss
          rw [← hstep, h]
          exact hcof
      | succ i2 =>
        rw [List.getElem?_cons_succ] at h
        rcases ih (idx + 1) i2 r h hfail hcof with ⟨hskip, hev⟩
        constructor
        · intro j r2 hj hij
          rcases j with _ | j2
          · omega
          · rw [List.getElem?_cons_succ] at hj
            exact hskip j2 r2 hj (by omega)
        · intro k a hmem
          rcases List.mem_append.mp hmem with hm | hm
          · have hm2 : WfEvent.launched k a ∈ (executeStep env step idx ss).2 := by
              by_cases hdel : idx < total - 1 ∧ step.delay_ms > 0
              · rw [if_pos hdel] at hm
                rcases List.mem_append.mp hm with hm3 | hm3
                · exact hm3
                · simp at hm3
              · rw [if_neg hdel] at hm
                exact hm
            have := executeStep_launched env step idx ss k a hm2
            omega
          · have := hev k a hm
            omega

theorem runSteps_skipped_src (env : WfEnv) (ss : List Session) (total : Nat) :
    ∀ (steps : List WorkflowStep) (idx j : Nat) (r : WorkflowStepResult),
      (runSteps env ss total steps idx).1[j]? = some r → r.status = .skipped →
      ∃ i r2, (runSteps env ss total steps idx).1[i]? = some r2 ∧ i < j ∧
        r2.status = .failed ∧ r2.step.continue_on_failure = false := by
  intro steps
  induction steps with
  | nil => intro idx j r h; simp [runSteps] at h
  | cons step rest ih =>
    intro idx j r h hsk
    rw [runSteps_cons] at h ⊢
    by_cases hbrk : (executeStep env step idx ss).1.status = .failed ∧
        step.continue_on_failure = false
    · rw [if_pos hbrk] at h ⊢
      cases j with
      | zero =>
        exfalso
        rw [List.getElem?_cons_zero] at h
        simp only [Option.some.injEq] at h
        rw [← h] at hsk
        rw [hsk] at hbrk
        exact StepStatus.noConfusion hbrk.1
      | succ j2 =>
        refine ⟨0, (executeStep env step idx ss).1, ?_, by omega, hbrk.1, ?_⟩
        · rw [List.getElem?_cons_zero]
        · rw [executeStep_step env step idx ss]
          exact hbrk.2
    · rw [if_neg hbrk] at h ⊢
      cases j with
      | zero =>
        exfalso
        rw [List.getElem?_cons_zero] at h
        simp only [Option.some.injEq] at h
        rw [← h] at hsk
        rcases executeStep_status env step idx ss with h2 | h2 <;>
          rw [hsk] at h2 <;> exact StepStatus.noConfusion h2
      | succ j2 =>
        rw [List.getElem?_cons_succ] at h
        rcases ih (idx + 1) j2 r h hsk with ⟨i, r2, hi, hij, h3, h4⟩
        refine ⟨i + 1, r2, ?_, by omega, h3, h4⟩
        rw [List.getElem?_cons_succ]
        exact hi

theorem runSteps_slept_src (env : WfEnv) (ss : List Session) (total : Nat) :
    ∀ (steps : List WorkflowStep) (idx k : Nat) (d : Int),
      WfEvent.slept k d ∈ (runSteps env ss total steps idx).2 →
      ∃ i r, (runSteps env ss total steps idx).1[i]? = some r ∧ k = idx + i ∧
        d = r.step.delay_ms ∧ d > 0 ∧ k < total - 1 ∧
        ¬(r.status = .failed ∧ r.step.continue_on_failure = false) ∧
        r.status ≠ .skipped := by
  intro steps
  induction steps with
  | nil => intro idx k d h; simp [runSteps] at h
  | cons step rest ih =>
    intro idx k d h
    rw [runSteps_cons] at h ⊢
    by_cases hbrk : (executeStep env step idx ss).1.status = .failed ∧
        step.continue_on_failure = false
    · rw [if_pos hbrk] at h ⊢
      exact absurd h (executeStep_no_slept env step idx ss k d)
    · rw [if_neg hbrk] at h ⊢
      rcases List.mem_append.mp h with hm | hm
      · by_cases hdel : idx < total - 1 ∧ step.delay_ms > 0
        · rw [if_pos hdel] at hm
          rcases List.mem_append.mp hm with hm2 | hm2
          · exact absurd hm2 (executeStep_no_slept env step idx ss k d)
          · simp only [List.mem_singleton, WfEvent.slept.injEq] at hm2
            obtain ⟨hk, hd⟩ := hm2
            refine ⟨0, (executeStep env step idx ss).1, ?_, by omega, ?_, by omega, by omega,
              ?_, ?_⟩
            · rw [List.getElem?_cons_zero]
            · rw [executeStep_step env step idx ss]; exact hd
            · intro hc
              apply hbrk
              refine ⟨hc.1, ?_⟩
              have := hc.2
              rw [executeStep_step env step idx ss] at this
              exact this
            · rcases executeStep_status env step idx ss with h2 | h2 <;> rw [h2] <;>
                exact fun hc => StepStatus.noConfusion hc
        · rw [if_neg hdel] at hm
          exact absurd hm (executeStep_no_slept env step idx ss k d)
      · rcases ih (idx + 1) k d hm with ⟨i, r, hi, hk, hd, hpos, hlt, hnb, hns⟩
        refine ⟨i + 1, r, ?_, by omega, hd, hpos, hlt, hnb, hns⟩
        rw [List.getElem?_cons_succ]
        exact hi

theorem runSteps_slept_of (env : WfEnv) (ss : List Session) (total : Nat) :
    ∀ (steps : List WorkflowStep) (idx i : Nat) (r : WorkflowStepResult),
      (runSteps env ss total steps idx).1[i]? = some r →
      r.status ≠ .skipped →
      ¬(r.status = .failed ∧ r.step.continue_on_failure = false) →
      idx + i < total - 1 → r.step.delay_ms > 0 →
      WfEvent.slept (idx + i) r.step.delay_ms ∈ (runSteps env ss total steps idx).2 := by
  intro steps
  induction steps with
  | nil => intro idx i r h; simp [runSteps] at h
  | cons step rest ih =>
    intro idx i r h hns hnb hlt hpos
    rw [runSteps_cons] at h ⊢
    by_cases hbrk : (executeStep env step idx ss).1.status = .failed ∧
        step.continue_on_failure = false
    · rw [if_pos hbrk] at h ⊢
      cases i with
      | zero =>
        exfalso
        rw [List.getElem?_cons_zero] at h
        simp only [Option.some.injEq] at h
        apply hnb
        rw [← h]
        refine ⟨hbrk.1, ?_⟩
        rw [executeStep_step env step idx ss]
        exact hbrk.2
      | succ i2 =>
        exfalso
        rw [List.getElem?_cons_succ] at h
        exact hns (markSkipped_getElem rest (idx + 1) i2 r h).1
    · rw [if_neg hbrk] at h ⊢
      cases i with
      | zero =>
        rw [List.getElem?_cons_zero] at h
        simp only [Option.some.injEq] at h
        have hstep : r.step = step := by rw [← h, executeStep_step env step idx ss]
        have hdel : idx < total - 1 ∧ step.delay_ms > 0 := by
          constructor
          · omega
          · rw [← hstep]; exact hpos
        rw [if_pos hdel]
        apply List.mem_append_left
        apply List.mem_append_right
        simp [hstep]
      | succ i2 =>
        rw [List.getElem?_cons_succ] at h
        have := ih (idx + 1) i2 r h hns hnb (by omega) hpos
        apply List.mem_append_right
        have heq : idx + (i2 + 1) = idx + 1 + i2 := by omega
        rw [heq]
        exact this

/-- Counting: when every status is one of the three terminal ones, the
three counters sum to the number of results. -/
theorem count_status_partition : ∀ (l : List WorkflowStepResult),
    (∀ x ∈ l, x.status = .success ∨ x.status = .failed ∨ x.status = .skipped) →
    l.countP (fun r => r.status = StepStatus.success) +
      l.countP (fun r => r.status = StepStatus.failed) +
      l.countP (fun r => r.status = StepStatus.skipped) = l.length := by
  intro l h
  induction l with
  | nil => rfl
  | cons x xs ih =>
    have hx := h x (by simp)
    have ih2 := ih (fun y hy => h y (by simp [hy]))
    rcases hx with h1 | h1 | h1 <;> simp [List.countP_cons, h1] <;> omega

/-! ### Lemmas about the launchers -/

theorem pathExistsVal_error (env : OSEnv) (v : PyVal) (e : Exn)
    (h : env.pathExistsVal v = .error e) : e = .other ("TypeError: invalid path") := by
  cases v <;> simp_all [OSEnv.pathExistsVal]

/-- Validation of the generic launcher never raises `FileNotFoundError`:
its failures are `ConfigurationError`, `ExecutableNotFoundError` or a
`TypeError`. -/
theorem generic_validate_no_fnf (L : GenericAppLauncher) (env : OSEnv) (e : Exn)
    (h : L.validate_config env = .error e) : e.isFileNotFound = false := by
  unfold GenericAppLauncher.validate_config at h
  split at h
  · simp only [Except.error.injEq] at h
    subst h
    rfl
  · split at h
    next e2 heq =>
      simp only [Except.error.injEq] at h
      subst h
      rw [pathExistsVal_error env _ e2 heq]
      rfl
    next ex heq =>
      split at h
      · simp only [Except.error.injEq] at h
        subst h
        rfl
      · split at h
        · split at h
          next e3 heq2 =>
            simp only [Except.error.injEq] at h
            subst h
            rw [pathExistsVal_error env _ e3 heq2]
            rfl
          next wdex heq2 =>
            split at h
            · simp only [Except.error.injEq] at h
              subst h
              rfl
            · exact Except.noConfusion h
        · exact Except.noConfusion h

/-- When the try body of the generic launch raises `FileNotFoundError`, the
raise came from the `Popen` call. -/
theorem generic_body_popen (L : GenericAppLauncher) (env : OSEnv) (e : Exn)
    (h : L.launch_body env = .error e) (hf : e.isFileNotFound = true) :
    env.popen L.build_command_args L.working_directory = .error e := by
  unfold GenericAppLauncher.launch_body at h
  cases hv : L.validate_config env with
  | error ev =>
    simp only [hv, Except.error.injEq] at h
    subst h
    have h2 := generic_validate_no_fnf L env _ hv
    rw [hf] at h2
    exact Bool.noConfusion h2
  | ok v =>
    simp only [hv] at h
    by_cases hb : (!v) = true
    · rw [if_pos hb] at h
      exact Except.noConfusion h
    · rw [if_neg hb] at h
      cases hp : env.popen L.build_command_args L.working_directory with
      | error ep =>
        simp only [hp, Except.error.injEq] at h
        subst h
        rfl
      | ok pid => simp [hp] at h

/-- The browser launch always catches: whatever the body does, a
`LaunchResult` comes back. -/
theorem browser_launch_ok (L : BrowserLauncher) (env : OSEnv) :
    ∃ r, L.launch env = .ok r := by
  unfold BrowserLauncher.launch
  cases hb : L.launch_body env with
  | ok r => exact ⟨r, by simp [hb]⟩
  | error e =>
    by_cases he : e.isExecNotFound = true
    · refine ⟨LaunchResult.error_result (e.msg) (some e), ?_⟩
      simp [hb, he]
    · refine ⟨LaunchResult.error_result ("Launch failed: " ++ e.msg) (some e), ?_⟩
      simp [hb, he]

theorem exn_isFileNotFound_iff (e : Exn) :
    e.isFileNotFound = true ↔ ∃ m, e = .fileNotFound m := by
  cases e <;> simp [Exn.isFileNotFound]

/-- A validation error other than `FileNotFoundError` is converted by the
generic launch into a failed result, not re-raised. -/
theorem generic_launch_of_validate_error (L : GenericAppLauncher) (env : OSEnv) (e : Exn)
    (hv : L.validate_config env = .error e) (hnf : e.isFileNotFound = false) :
    L.launch env = .ok (LaunchResult.error_result ("Launch failed: " ++ e.msg) (some e)) := by
  unfold GenericAppLauncher.launch GenericAppLauncher.launch_body
  simp [hv, hnf]

/-! ### Lemmas about window capture -/

theorem get_window_state_windows_total (env : WinEnv) (pid : Nat) :
    ∃ o, get_window_state_windows env pid = .ok o := by
  unfold get_window_state_windows
  cases h : get_window_state_windows_body env pid with
  | ok r => exact ⟨r, by simp [h]⟩
  | error e => exact ⟨none, by simp [h]⟩

theorem get_window_state_macos_total (env : MacEnv) (pid : Nat) :
    ∃ o, get_window_state_macos env pid = .ok o := by
  unfold get_window_state_macos
  cases h : get_window_state_macos_body env pid with
  | ok r => exact ⟨r, by simp [h]⟩
  | error e => exact ⟨none, by simp [h]⟩

/-- The over-approximation of every pid the Windows polling loop can ever
put into its pid set: the root pid, the initial children, or any pid a
refresh could report. -/
def inWinTree (env : WinEnv) (pid q : Nat) : Prop :=
  q = pid ∨ (∃ cs, env.initialChildren = .ok cs ∧ q ∈ cs) ∨
    (∃ a cs, env.childrenAt a = .ok cs ∧ q ∈ cs)

theorem findLoopAttempt_none (env : WinEnv) (pid : Nat)
    (hw : ∀ a w, w ∈ env.windowsAt a → w.visible = true → w.parent = 0 →
      w.title ≠ "" → ¬ inWinTree env pid w.pid)
    (rec : List Nat → Except Exn (Option Nat)) (attempt : Nat) (pids : List Nat)
    (hp : ∀ q ∈ pids, inWinTree env pid q) :
    findLoopAttempt env rec attempt pids = rec pids := by
  unfold findLoopAttempt
  have hfind : (env.windowsAt attempt).find? (winMatch pids) = none := by
    rw [List.find?_eq_none]
    intro w hwmem hmatch
    unfold winMatch at hmatch
    simp only [Bool.and_eq_true, beq_iff_eq, Bool.not_eq_true'] at hmatch
    obtain ⟨⟨⟨hvis, hcont⟩, hpar⟩, htit⟩ := hmatch
    have hmem : w.pid ∈ pids := List.elem_iff.mp hcont
    have htitle : w.title ≠ "" := by
      intro hc
      rw [hc] at htit
      exact absurd htit (by decide)
    exact hw attempt w hwmem hvis hpar htitle (hp w.pid hmem)
  rw [hfind]

theorem findLoopWindows_none (env : WinEnv) (pid : Nat)
    (hw : ∀ a w, w ∈ env.windowsAt a → w.visible = true → w.parent = 0 →
      w.title ≠ "" → ¬ inWinTree env pid w.pid) :
    ∀ (fuel attempt : Nat) (pids : List Nat), (∀ q ∈ pids, inWinTree env pid q) →
      findLoopWindows env fuel attempt pids = .ok none ∨
        ∃ e, findLoopWindows env fuel attempt pids = .error e := by
  intro fuel
  induction fuel with
  | zero => intro attempt pids hp; exact Or.inl rfl
  | succ f ih =>
    intro attempt pids hp
    rw [findLoopWindows]
    cases hc : env.childrenAt attempt with
    | ok cs =>
      simp only [hc]
      have hp2 : ∀ q ∈ pids ++ cs, inWinTree env pid q := by
        intro q hq
        rcases List.mem_append.mp hq with hq | hq
        · exact hp q hq
        · exact Or.inr (Or.inr ⟨attempt, cs, hc, hq⟩)
      rw [findLoopAttempt_none env pid hw _ attempt (pids ++ cs) hp2]
      exact ih (attempt + 1) (pids ++ cs) hp2
    | error e =>
      simp only [hc]
      by_cases hps : e.isPsutilErr = true
      · rw [if_pos hps]
        rw [findLoopAttempt_none env pid hw _ attempt pids hp]
        exact ih (attempt + 1) pids hp
      · rw [if_neg hps]
        exact Or.inr ⟨e, rfl⟩

theorem gwsw_of_find_none (env : WinEnv) (pid : Nat)
    (h : find_window_by_pid_windows env pid = .ok none) :
    get_window_state_windows env pid = .ok none := by
  unfold get_window_state_windows get_window_state_windows_body
  simp [h]

theorem gwsw_of_find_error (env : WinEnv) (pid : Nat) (e : Exn)
    (h : find_window_by_pid_windows env pid = .error e) :
    get_window_state_windows env pid = .ok none := by
  unfold get_window_state_windows get_window_state_windows_body
  simp [h]

/-- When no eligible window is ever owned by a pid the loop could collect,
the Windows capture returns `None` without raising. -/
theorem get_window_state_windows_none (env : WinEnv) (pid : Nat)
    (hw : ∀ a w, w ∈ env.windowsAt a → w.visible = true → w.parent = 0 →
      w.title ≠ "" → ¬ inWinTree env pid w.pid) :
    get_window_state_windows env pid = .ok none := by
  have hfind : find_window_by_pid_windows env pid = .ok none ∨
      ∃ e, find_window_by_pid_windows env pid = .error e := by
    unfold find_window_by_pid_windows
    cases hi : env.initialChildren with
    | ok cs =>
      simp only [hi]
      have hp : ∀ q ∈ pid :: cs, inWinTree env pid q := by
        intro q hq
        rcases List.mem_cons.mp hq with rfl | hq
        · exact Or.inl rfl
        · exact Or.inr (Or.inl ⟨cs, hi, hq⟩)
      exact findLoopWindows_none env pid hw env.attempts 0 (pid :: cs) hp
    | error e =>
      simp only [hi]
      by_cases hps : e.isPsutilErr = true
      · rw [if_pos hps]
        have hp : ∀ q ∈ [pid], inWinTree env pid q := by
          intro q hq
          rcases List.mem_singleton.mp hq with rfl
          exact Or.inl rfl
        exact findLoopWindows_none env pid hw env.attempts 0 [pid] hp
      · rw [if_neg hps]
        exact Or.inr ⟨e, rfl⟩
  rcases hfind with h | ⟨e, h⟩
  · exact gwsw_of_find_none env pid h
  · exact gwsw_of_find_error env pid e h

theorem macLoop_none (env : MacEnv) (pid : Nat)
    (hw : ∀ a w, w ∈ env.windowListAt a → w.ownerPid ≠ pid) :
    ∀ (fuel attempt : Nat), macLoop env pid fuel attempt = .ok none := by
  intro fuel
  induction fuel with
  | zero => intro attempt; rfl
  | succ f ih =>
    intro attempt
    rw [macLoop]
    have hfind : (env.windowListAt attempt).find? (macMatch pid) = none := by
      rw [List.find?_eq_none]
      intro w hwmem hmatch
      simp only [macMatch, Bool.and_eq_true, beq_iff_eq] at hmatch
      exact hw attempt w hwmem hmatch.1.1.1.1.1
    rw [hfind]
    exact ih (attempt + 1)

/-- When no window in any snapshot is owned by exactly the requested pid,
the macOS capture returns `None` without raising — note a window owned by
a live descendant of the pid does not count. -/
theorem get_window_state_macos_none (env : MacEnv) (pid : Nat)
    (hw : ∀ a w, w ∈ env.windowListAt a → w.ownerPid ≠ pid) :
    get_window_state_macos env pid = .ok none := by
  unfold get_window_state_macos get_window_state_macos_body
  cases hn : env.processName with
  | ok nm => simp [hn, macLoop_none env pid hw env.attempts 0]
  | error e =>
      by_cases hps : e.isPsutilErr = true
      · simp [hn, hps]
      · simp [hn, hps]

/-! ### Concrete fixtures for the counterexamples and witnesses -/

def cfgRunSh : LaunchConfig :=
  { app_type := .generic, app_name := "myapp",
    parameters := [("executable_path", .str "./run.sh")], platform := "linux" }

def genericRunSh : GenericAppLauncher := GenericAppLauncher.init cfgRunSh

/-- An OS in which every path check succeeds but the spawn raises
`FileNotFoundError` (for example a relative executable path that `Popen`
resolves against a different working directory). -/
def envPopenFNF : OSEnv :=
  { pathExists := fun _ => true,
    popen := fun _ _ => .error (.fileNotFound ("No such file or directory")) }

def cfgObsidian : LaunchConfig :=
  { app_type := .generic, app_name := "obsidian", parameters := [],
    platform := "darwin" }

def cfgNope : LaunchConfig :=
  { app_type := .generic, app_name := "tool",
    parameters := [("executable_path", .str "/nope")], platform := "linux" }

def cfgChromeNoTabs : LaunchConfig :=
  { app_type := .browser, app_name := "chrome", parameters := [],
    platform := "win32" }

def chromeNoTabs : BrowserLauncher :=
  BrowserLauncher.init cfgChromeNoTabs (.ok ("/opt/chrome")) [] ["--new-window"]

def envPopenOk : OSEnv :=
  { pathExists := fun _ => true, popen := fun _ _ => .ok 1234 }

def envNoFiles : OSEnv :=
  { pathExists := fun _ => false, popen := fun _ _ => .ok 1 }

/-! ### Claims about the launchers -/

/-- C1 (counterexample): with an executable path that passes validation but
a spawn call that raises `FileNotFoundError`, `GenericAppLauncher.launch`
re-raises `ExecutableNotFoundError` to its caller instead of returning a
`LaunchResult`. -/
theorem generic_launch_exception_escapes :
    GenericAppLauncher.launch genericRunSh envPopenFNF =
      .error (.execNotFound ("Executable not found: ./run.sh")) := by
  rfl

/-- C1 (amended): `BrowserLauncher.launch` always returns a `LaunchResult`;
`GenericAppLauncher.launch` returns a `LaunchResult` in every case except
that it raises `ExecutableNotFoundError` exactly when the process spawn
itself raised `FileNotFoundError`; in particular invalid configurations and
executables found missing during validation are returned as failed results,
never raised. -/
theorem launcher_exception_boundary (B : BrowserLauncher) (G : GenericAppLauncher)
    (env : OSEnv) :
    (∃ r, B.launch env = .ok r) ∧
    (∀ e, G.launch env = .error e →
      e.isExecNotFound = true ∧
      ∃ m, env.popen G.build_command_args G.working_directory =
        .error (.fileNotFound m)) := by
  refine ⟨browser_launch_ok B env, ?_⟩
  intro e h
  unfold GenericAppLauncher.launch at h
  cases hb : G.launch_body env with
  | ok r => simp [hb] at h
  | error e0 =>
    simp only [hb] at h
    by_cases hf : e0.isFileNotFound = true
    · rw [if_pos hf] at h
      simp only [Except.error.injEq] at h
      have hp := generic_body_popen G env e0 hb hf
      constructor
      · rw [← h]
        rfl
      · obtain ⟨m, rfl⟩ := (exn_isFileNotFound_iff e0).mp hf
        exact ⟨m, hp⟩
    · rw [if_neg hf] at h
      exact Except.noConfusion h

/-- Closed instance of `launcher_exception_boundary`. -/
theorem launcher_exception_boundary_witness :
    (∃ r, chromeNoTabs.launch envPopenFNF = .ok r) ∧
    ((Exn.execNotFound ("Executable not found: ./run.sh")).isExecNotFound = true ∧
      ∃ m, envPopenFNF.popen genericRunSh.build_command_args
        genericRunSh.working_directory = .error (.fileNotFound m)) :=
  ⟨(launcher_exception_boundary chromeNoTabs genericRunSh envPopenFNF).1,
   (launcher_exception_boundary chromeNoTabs genericRunSh envPopenFNF).2
     (.execNotFound ("Executable not found: ./run.sh")) (by rfl)⟩

/-- C2: dispatch for an identifier absent from the launcher registry falls
back to the generic launcher and never fails, but that launcher attempts no
further resolution strategy: with no explicit executable path it fails with
`ConfigurationError` at once, for every environment (so no platform app
registry lookup and no shell open-by-name can influence it), and with a
nonexistent explicit path it fails with `ExecutableNotFoundError` at once. -/
theorem factory_generic_fallback_no_strategies :
    create_launcher (defaultRegistry false) false [] cfgObsidian = .generic ∧
    (∀ env : OSEnv,
      GenericAppLauncher.launch (GenericAppLauncher.init cfgObsidian) env =
        .ok (LaunchResult.error_result ("Launch failed: Executable path is required")
          (some (.configError ("Executable path is required"))))) ∧
    (∀ env : OSEnv, env.pathExists "/nope" = false →
      GenericAppLauncher.launch (GenericAppLauncher.init cfgNope) env =
        .ok (LaunchResult.error_result ("Launch failed: Executable not found: /nope")
          (some (.execNotFound ("Executable not found: /nope"))))) := by
  refine ⟨by decide, fun env => rfl, ?_⟩
  intro env hne
  have h0 : (GenericAppLauncher.init cfgNope).validate_config env =
      (if !(env.pathExists "/nope") then
        Except.error (Exn.execNotFound ("Executable not found: /nope"))
      else Except.ok true) := rfl
  have hv : (GenericAppLauncher.init cfgNope).validate_config env =
      .error (.execNotFound ("Executable not found: /nope")) := by
    rw [h0, hne]
    rfl
  exact generic_launch_of_validate_error _ env _ hv (by rfl)

/-- Closed instance of `factory_generic_fallback_no_strategies`. -/
theorem factory_generic_fallback_no_strategies_witness :
    GenericAppLauncher.launch (GenericAppLauncher.init cfgNope) envNoFiles =
      .ok (LaunchResult.error_result ("Launch failed: Executable not found: /nope")
        (some (.execNotFound ("Executable not found: /nope")))) :=
  factory_generic_fallback_no_strategies.2.2 envNoFiles (by rfl)

/-- C5 (counterexample): a browser launch config whose parameters have no
`tabs` key at all is not rejected — the browser is launched with zero
tabs and the launch reports success. -/
theorem browser_no_tabs_silently_launches :
    cfgChromeNoTabs.parameters.lookup "tabs" = none ∧
    chromeNoTabs.launch envPopenOk =
      .ok { success := true,
            message := "Successfully launched chrome with 0 tab(s)",
            process_id := some 1234, error := none } :=
  ⟨rfl, rfl⟩

/-- C5 (amended): omitting the tab list is not treated as invalid input:
`tabs` defaults to the empty list, validation accepts the configuration
whenever the executable resolves and exists, and a successful spawn reports
a launch with zero tabs. -/
theorem browser_missing_tabs_defaults_empty (cfg : LaunchConfig) (p : String)
    (pargs nargs : List String) (env : OSEnv) (pid : Nat)
    (htabs : cfg.parameters.lookup "tabs" = none)
    (hsel : cfg.parameters.lookup "use_selenium" = none)
    (hexists : env.pathExists p = true)
    (hpopen : ∀ args, env.popen args .pynone = .ok pid) :
    (BrowserLauncher.init cfg (.ok p) pargs nargs).validate_config env = .ok true ∧
    (BrowserLauncher.init cfg (.ok p) pargs nargs).launch env =
      .ok (LaunchResult.success_result
        ("Successfully launched " ++ cfg.app_name ++ " with 0 tab(s)") (some pid)) := by
  have htabs2 : (BrowserLauncher.init cfg (.ok p) pargs nargs).tabs = .list [] := by
    show paramsGet cfg.parameters "tabs" (.list []) = .list []
    unfold paramsGet
    rw [htabs]
  have hsel2 : (BrowserLauncher.init cfg (.ok p) pargs nargs).use_selenium = .bool false := by
    show paramsGet cfg.parameters "use_selenium" (.bool false) = .bool false
    unfold paramsGet
    rw [hsel]
  have hexe : (BrowserLauncher.init cfg (.ok p) pargs nargs).exe_path_result = .ok p := rfl
  have hv : (BrowserLauncher.init cfg (.ok p) pargs nargs).validate_config env = .ok true := by
    unfold BrowserLauncher.validate_config
    simp [hexe, hexists, htabs2]
  refine ⟨hv, ?_⟩
  have hpa : (BrowserLauncher.init cfg (.ok p) pargs nargs).profile_args = pargs := rfl
  have hna : (BrowserLauncher.init cfg (.ok p) pargs nargs).new_window_args = nargs := rfl
  have hargs : (BrowserLauncher.init cfg (.ok p) pargs nargs).build_command_args =
      .ok ([PyVal.str p] ++
        (if (BrowserLauncher.init cfg (.ok p) pargs nargs).profile.truthy
          then pargs.map PyVal.str else []) ++ nargs.map PyVal.str ++ []) := by
    unfold BrowserLauncher.build_command_args
    simp [hexe, htabs2, hpa, hna, collectUrls]
  have hname : (BrowserLauncher.init cfg (.ok p) pargs nargs).config.app_name =
      cfg.app_name := rfl
  have hstr : (" with " ++ (toString (0 : Nat) ++ " tab(s)")) = " with 0 tab(s)" := rfl
  have hnative : (BrowserLauncher.init cfg (.ok p) pargs nargs).launch_native env =
      .ok (LaunchResult.success_result
        ("Successfully launched " ++ cfg.app_name ++ " with 0 tab(s)") (some pid)) := by
    unfold BrowserLauncher.launch_native
    simp only [hargs, hpopen, htabs2, PyVal.pyLen, hname, List.length_nil]
    rw [String.append_assoc, String.append_assoc, hstr]
  unfold BrowserLauncher.launch BrowserLauncher.launch_body
  simp [hv, hsel2, hnative, PyVal.truthy]

/-- Closed instance of `browser_missing_tabs_defaults_empty`. -/
theorem browser_missing_tabs_defaults_empty_witness :
    (BrowserLauncher.init cfgChromeNoTabs (.ok ("/opt/chrome")) []
        ["--new-window"]).validate_config envPopenOk = .ok true ∧
    (BrowserLauncher.init cfgChromeNoTabs (.ok ("/opt/chrome")) []
        ["--new-window"]).launch envPopenOk =
      .ok (LaunchResult.success_result
        ("Successfully launched " ++ cfgChromeNoTabs.app_name ++ " with 0 tab(s)")
        (some 1234)) :=
  browser_missing_tabs_defaults_empty cfgChromeNoTabs "/opt/chrome" [] ["--new-window"]
    envPopenOk 1234 (by rfl) (by rfl) (by rfl) (fun _ => rfl)

/-! ### Workflow fixtures -/

def lcBad : LaunchConfiguration :=
  { app_type := "generic", app_name := "badapp", parameters := [] }

def lcChrome : LaunchConfiguration :=
  { app_type := "browser", app_name := "chrome", parameters := [] }

def stepFailStop : WorkflowStep :=
  { order := 1, delay_ms := 500, inline_config := some lcBad,
    continue_on_failure := false }

def stepChrome : WorkflowStep :=
  { order := 2, delay_ms := 0, inline_config := some lcChrome }

def wfStop : Workflow :=
  { id := "wf-1", name := "stop", launch_sequence := [stepFailStop, stepChrome] }

/-- A dispatcher in which launching `badapp` raises and everything else
succeeds. -/
def envWfFail : WfEnv :=
  { platform := "win32",
    launch := fun lc =>
      if lc.app_name == "badapp" then .error (.launchError ("spawn failure"))
      else .ok (LaunchResult.success_result ("ok") (some 7)) }

def stepA : WorkflowStep :=
  { order := 1, delay_ms := 100, inline_config := some lcChrome }

def stepB : WorkflowStep :=
  { order := 2, delay_ms := 200, inline_config := some lcBad,
    continue_on_failure := true }

def stepC : WorkflowStep :=
  { order := 3, inline_config := some lcChrome }

def wfDelays : Workflow :=
  { id := "wf-2", name := "delays", launch_sequence := [stepA, stepB, stepC] }

def stepNoCfg : WorkflowStep := { order := 3 }

def stepMissingRef : WorkflowStep :=
  { order := 1, session_ref := some ("missing-id") }

def sessionA : Session := { id := "sess-a", name := "A", launch_config := lcChrome }

/-! ### Claims about the workflow executor -/

/-- C6: the reported step sequence of a workflow run is the input step list
arranged by the `order` field: a permutation of `launch_sequence` that is
sorted on `order`, independent of list position. -/
theorem workflow_execution_order (env : WfEnv) (wf : Workflow)
    (sessions : List Session) :
    ((execute_workflow env wf sessions).1.step_results.map (fun r => r.step)).Perm
        wf.launch_sequence ∧
    ((execute_workflow env wf sessions).1.step_results.map (fun r => r.step)).Pairwise
        (fun a b => a.order ≤ b.order) := by
  have hmap : (execute_workflow env wf sessions).1.step_results.map (fun r => r.step)
      = sortSteps wf.launch_sequence :=
    runSteps_map_step env sessions (sortSteps wf.launch_sequence).length
      (sortSteps wf.launch_sequence) 0
  rw [hmap]
  exact ⟨sortSteps_perm wf.launch_sequence, sortSteps_pairwise wf.launch_sequence⟩

/-- C3: when the step at sorted position `i` fails and its
continue-on-failure flag is false, every later position `j` is reported
SKIPPED and no launch is ever invoked for it. -/
theorem workflow_failure_skips_rest (env : WfEnv) (wf : Workflow)
    (sessions : List Session) (i j : Nat) (r rj : WorkflowStepResult)
    (hi : (execute_workflow env wf sessions).1.step_results[i]? = some r)
    (hfail : r.status = .failed)
    (hcof : r.step.continue_on_failure = false)
    (hj : (execute_workflow env wf sessions).1.step_results[j]? = some rj)
    (hij : i < j) :
    rj.status = .skipped ∧
    ∀ a, WfEvent.launched j a ∉ (execute_workflow env wf sessions).2 := by
  have hi2 : (runSteps env sessions (sortSteps wf.launch_sequence).length
      (sortSteps wf.launch_sequence) 0).1[i]? = some r := hi
  have hj2 : (runSteps env sessions (sortSteps wf.launch_sequence).length
      (sortSteps wf.launch_sequence) 0).1[j]? = some rj := hj
  rcases runSteps_break env sessions (sortSteps wf.launch_sequence).length
      (sortSteps wf.launch_sequence) 0 i r hi2 hfail hcof with ⟨hskip, hev⟩
  refine ⟨hskip j rj hj2 hij, ?_⟩
  intro a hmem
  have hmem2 : WfEvent.launched j a ∈ (runSteps env sessions
      (sortSteps wf.launch_sequence).length (sortSteps wf.launch_sequence) 0).2 := hmem
  have hle := hev j a hmem2
  omega

/-- Closed instance of `workflow_failure_skips_rest`. -/
theorem workflow_failure_skips_rest_witness :
    ({ step_index := 1, step := stepChrome, status := .skipped,
       error_message := some ("Skipped due to previous failure") } :
        WorkflowStepResult).status = .skipped ∧
    WfEvent.launched 1 "chrome" ∉ (execute_workflow envWfFail wfStop []).2 := by
  have h := workflow_failure_skips_rest envWfFail wfStop [] 0 1
    { step_index := 0, step := stepFailStop, status := .failed,
      error_message := some ("spawn failure") }
    { step_index := 1, step := stepChrome, status := .skipped,
      error_message := some ("Skipped due to previous failure") }
    (by rfl) (by rfl) (by rfl) (by rfl) (by omega)
  exact ⟨h.1, h.2 "chrome"⟩

/-- C4: exceptions while resolving a step (including a session reference
absent from the session list) or while dispatching and launching it are
contained at the step boundary as FAILED results carrying the exception
message, and skipped results arise only from the continue-on-failure
policy. -/
theorem workflow_step_exception_containment (env : WfEnv) (sessions : List Session) :
    (∀ step idx e, resolveLaunchConfig env step sessions = .error e →
      executeStep env step idx sessions =
        ({ step_index := idx, step := step, status := .failed,
           error_message := some e.msg }, [])) ∧
    (∀ step idx lc e, resolveLaunchConfig env step sessions = .ok lc →
      env.launch lc = .error e →
      executeStep env step idx sessions =
        ({ step_index := idx, step := step, status := .failed,
           error_message := some e.msg }, [WfEvent.launched idx lc.app_name])) ∧
    (∀ (step : WorkflowStep) (ref : String), step.session_ref = some ref → ref ≠ "" →
      (∀ s ∈ sessions, s.id ≠ ref) →
      resolveLaunchConfig env step sessions =
        .error (.valueError ("Session reference not found: " ++ ref))) ∧
    (∀ (wf : Workflow) (j : Nat) (rj : WorkflowStepResult),
      (execute_workflow env wf sessions).1.step_results[j]? = some rj →
      rj.status = .skipped →
      ∃ i ri, (execute_workflow env wf sessions).1.step_results[i]? = some ri ∧
        i < j ∧ ri.status = .failed ∧ ri.step.continue_on_failure = false) := by
  refine ⟨?_, ?_, ?_, ?_⟩
  · intro step idx e h
    unfold executeStep
    simp [h]
  · intro step idx lc e h1 h2
    unfold executeStep
    simp [h1, h2]
  · intro step ref href hne hnomem
    unfold resolveLaunchConfig
    rw [href]
    have hE : ref.isEmpty = false := by
      rw [Bool.eq_false_iff]
      intro hc
      exact hne ((String.isEmpty_iff ref).mp hc)
    have ht : optStrTruthy (some ref) = true := by
      unfold optStrTruthy
      simp [hE]
    have hfind : sessions.find? (fun s => s.id == ref) = none := by
      rw [List.find?_eq_none]
      intro s hs hbeq
      simp only [beq_iff_eq] at hbeq
      exact hnomem s hs hbeq
    simp [ht, hfind]
  · intro wf j rj hj hsk
    exact runSteps_skipped_src env sessions (sortSteps wf.launch_sequence).length
      (sortSteps wf.launch_sequence) 0 j rj hj hsk

/-- Closed instance of `workflow_step_exception_containment`. -/
theorem workflow_step_exception_containment_witness :
    executeStep envWfFail stepNoCfg 0 [sessionA] =
      ({ step_index := 0, step := stepNoCfg, status := .failed,
         error_message := some ("Step has neither session_ref nor inline_config") },
        []) ∧
    resolveLaunchConfig envWfFail stepMissingRef [sessionA] =
      .error (.valueError ("Session reference not found: missing-id")) := by
  constructor
  · exact (workflow_step_exception_containment envWfFail [sessionA]).1 stepNoCfg 0
      (.valueError ("Step has neither session_ref nor inline_config")) (by rfl)
  · exact (workflow_step_exception_containment envWfFail [sessionA]).2.2.1 stepMissingRef
      "missing-id" (by rfl) (by decide) (by decide)

/-- C7: the terminating failed step never has its own delay slept, while
every executed non-terminating step that is not last in sorted order and
has a positive delay is slept for exactly that delay, whether it succeeded
or failed. -/
theorem workflow_delay_policy (env : WfEnv) (wf : Workflow) (sessions : List Session) :
    (∀ i r d, (execute_workflow env wf sessions).1.step_results[i]? = some r →
      r.status = .failed → r.step.continue_on_failure = false →
      WfEvent.slept i d ∉ (execute_workflow env wf sessions).2) ∧
    (∀ i r, (execute_workflow env wf sessions).1.step_results[i]? = some r →
      r.status ≠ .skipped →
      ¬(r.status = .failed ∧ r.step.continue_on_failure = false) →
      i < (execute_workflow env wf sessions).1.step_results.length - 1 →
      r.step.delay_ms > 0 →
      WfEvent.slept i r.step.delay_ms ∈ (execute_workflow env wf sessions).2) := by
  constructor
  · intro i r d hi hf hc hmem
    have hmem2 : WfEvent.slept i d ∈ (runSteps env sessions
        (sortSteps wf.launch_sequence).length (sortSteps wf.launch_sequence) 0).2 := hmem
    rcases runSteps_slept_src env sessions (sortSteps wf.launch_sequence).length
        (sortSteps wf.launch_sequence) 0 i d hmem2 with
      ⟨i2, r2, hi2, hk, hd, hpos, hlt, hnb, hns⟩
    have hii : i2 = i := by omega
    subst hii
    have hi3 : (runSteps env sessions (sortSteps wf.launch_sequence).length
        (sortSteps wf.launch_sequence) 0).1[i2]? = some r := hi
    have hr : r2 = r := by
      have := hi2.symm.trans hi3
      simpa using this
    subst hr
    exact hnb ⟨hf, hc⟩
  · intro i r hi hns hnb hlt hpos
    have hi2 : (runSteps env sessions (sortSteps wf.launch_sequence).length
        (sortSteps wf.launch_sequence) 0).1[i]? = some r := hi
    have hlen : (execute_workflow env wf sessions).1.step_results.length =
        (sortSteps wf.launch_sequence).length :=
      runSteps_length env sessions (sortSteps wf.launch_sequence).length
        (sortSteps wf.launch_sequence) 0
    have hmem := runSteps_slept_of env sessions (sortSteps wf.launch_sequence).length
      (sortSteps wf.launch_sequence) 0 i r hi2 hns hnb (by omega) hpos
    simpa using hmem

/-- Closed instance of `workflow_delay_policy`: the failed middle step with
continue-on-failure true still gets its 200 ms delay slept. -/
theorem workflow_delay_policy_witness :
    WfEvent.slept 1 (200 : Int) ∈ (execute_workflow envWfFail wfDelays []).2 := by
  have h := (workflow_delay_policy envWfFail wfDelays []).2 1
    { step_index := 1, step := stepB, status := .failed,
      error_message := some ("spawn failure") }
    (by rfl) (by decide) (by decide) (by decide) (by decide)
  exact h

theorem overallStatus_spec (s f : Nat) :
    (overallStatus s f = .failed ↔ 0 < f) ∧ (overallStatus s f = .success ↔ f = 0) := by
  unfold overallStatus
  by_cases h1 : f > 0 ∧ s = 0
  · rw [if_pos h1]
    exact ⟨⟨fun _ => h1.1, fun _ => rfl⟩,
      ⟨fun hc => StepStatus.noConfusion hc, fun hf0 => absurd h1.1 (by omega)⟩⟩
  · rw [if_neg h1]
    by_cases h2 : f > 0
    · rw [if_pos h2]
      exact ⟨⟨fun _ => h2, fun _ => rfl⟩,
        ⟨fun hc => StepStatus.noConfusion hc, fun hf0 => absurd h2 (by omega)⟩⟩
    · rw [if_neg h2]
      exact ⟨⟨fun hc => StepStatus.noConfusion hc, fun hf => absurd hf h2⟩,
        ⟨fun _ => by omega, fun _ => rfl⟩⟩

/-- C9: the aggregated workflow status is FAILED exactly when some step
failed — even alongside successes — and SUCCESS exactly otherwise. -/
theorem workflow_overall_status (env : WfEnv) (wf : Workflow) (sessions : List Session) :
    ((execute_workflow env wf sessions).1.status = .failed ↔
      0 < (execute_workflow env wf sessions).1.failed_steps) ∧
    ((execute_workflow env wf sessions).1.status = .success ↔
      (execute_workflow env wf sessions).1.failed_steps = 0) :=
  overallStatus_spec _ _

/-- Closed instance of `workflow_overall_status`: a run with one success
and one failure is FAILED overall. -/
theorem workflow_overall_status_witness :
    (execute_workflow envWfFail wfDelays []).1.status = .failed ∧
    0 < (execute_workflow envWfFail wfDelays []).1.successful_steps :=
  ⟨(workflow_overall_status envWfFail wfDelays []).1.mpr (by decide), by decide⟩

/-- C10: a workflow run reports exactly one result per step, every result
status is terminal (SUCCESS, FAILED or SKIPPED), and the three counters are
the counts of those statuses, summing to the number of steps. -/
theorem workflow_result_invariants (env : WfEnv) (wf : Workflow)
    (sessions : List Session) :
    (execute_workflow env wf sessions).1.step_results.length =
      wf.launch_sequence.length ∧
    (∀ x ∈ (execute_workflow env wf sessions).1.step_results,
      x.status = .success ∨ x.status = .failed ∨ x.status = .skipped) ∧
    (execute_workflow env wf sessions).1.successful_steps =
      (execute_workflow env wf sessions).1.step_results.countP
        (fun r => r.status = StepStatus.success) ∧
    (execute_workflow env wf sessions).1.failed_steps =
      (execute_workflow env wf sessions).1.step_results.countP
        (fun r => r.status = StepStatus.failed) ∧
    (execute_workflow env wf sessions).1.skipped_steps =
      (execute_workflow env wf sessions).1.step_results.countP
        (fun r => r.status = StepStatus.skipped) ∧
    (execute_workflow env wf sessions).1.successful_steps +
      (execute_workflow env wf sessions).1.failed_steps +
      (execute_workflow env wf sessions).1.skipped_steps =
      (execute_workflow env wf sessions).1.step_results.length := by
  have hstat : ∀ x ∈ (execute_workflow env wf sessions).1.step_results,
      x.status = .success ∨ x.status = .failed ∨ x.status = .skipped :=
    fun x hx => runSteps_status env sessions (sortSteps wf.launch_sequence).length
      (sortSteps wf.launch_sequence) 0 x hx
  have hlen : (execute_workflow env wf sessions).1.step_results.length =
      (sortSteps wf.launch_sequence).length :=
    runSteps_length env sessions (sortSteps wf.launch_sequence).length
      (sortSteps wf.launch_sequence) 0
  have hlen2 : (sortSteps wf.launch_sequence).length = wf.launch_sequence.length :=
    (sortSteps_perm wf.launch_sequence).length_eq
  refine ⟨hlen.trans hlen2, hstat, rfl, rfl, rfl, ?_⟩
  exact count_status_partition _ hstat

/-- Closed instance of `workflow_result_invariants`. -/
theorem workflow_result_invariants_witness :
    (execute_workflow envWfFail wfStop []).1.step_results.length =
      wfStop.launch_sequence.length ∧
    (execute_workflow envWfFail wfStop []).1.successful_steps +
      (execute_workflow envWfFail wfStop []).1.failed_steps +
      (execute_workflow envWfFail wfStop []).1.skipped_steps =
      (execute_workflow envWfFail wfStop []).1.step_results.length :=
  ⟨(workflow_result_invariants envWfFail wfStop []).1,
   (workflow_result_invariants envWfFail wfStop []).2.2.2.2.2⟩

/-! ### Window-capture fixtures -/

/-- A scene in which the root pid 42 has one child, 43, which owns the only
visible top-level titled window. -/
def winEnvChild : WinEnv :=
  { attempts := 3,
    initialChildren := .ok [43],
    childrenAt := fun _ => .ok [43],
    windowsAt := fun _ => [{ hwnd := 5551, visible := true, pid := 43,
                             parent := 0, title := "Main Window" }],
    getPlacement := fun _ => .ok { show_cmd := 1, left := 10, top := 20,
                                   right := 810, bottom := 620 },
    monitorIndexOf := fun _ => 0 }

/-- The same scene seen by the macOS backend: the only on-screen layer-0
window is owned by child 43 of the launched pid 42. -/
def macEnvChild : MacEnv :=
  { processName := .ok ("Helper"),
    attempts := 3,
    windowListAt := fun _ => [{ ownerPid := 43, hasBounds := true, x := 10,
                                y := 20, width := 800, height := 600,
                                layer := 0, isOnScreen := true }],
    monitors := [] }

def winEnvEmpty : WinEnv :=
  { attempts := 2,
    initialChildren := .ok [],
    childrenAt := fun _ => .ok [],
    windowsAt := fun _ => [],
    getPlacement := fun _ => .error (.other ("no window")),
    monitorIndexOf := fun _ => 0 }

def macEnvEmpty : MacEnv :=
  { processName := .ok ("app"),
    attempts := 2,
    windowListAt := fun _ => [],
    monitors := [] }

/-! ### Claims about window capture -/

/-- C8 (counterexample): for the same scene — a visible top-level window
owned by a live child of the launched pid — the Windows backend finds the
window via the process tree, while the macOS backend, which matches only
the exact pid, times out and returns `None`. -/
theorem capture_macos_ignores_process_tree :
    get_window_state_macos macEnvChild 42 = .ok none ∧
    get_window_state_windows winEnvChild 42 =
      .ok (some { x := 10, y := 20, width := 800, height := 600,
                  monitor_index := 0, is_maximized := false,
                  is_minimized := false }) := by
  constructor
  · rfl
  · rfl

/-- C8 (amended): on every platform `get_window_state` returns an optional
state and never raises; on Windows the poll matches windows owned by the
pid or by any process its repeated child enumeration can report, returning
`None` when no such eligible window ever appears; on macOS the poll matches
only windows owned by the exact pid, returning `None` when none appears. -/
theorem capture_polls_and_never_raises (winEnv : WinEnv) (macEnv : MacEnv)
    (pid : Nat) :
    (∃ o, get_window_state_windows winEnv pid = .ok o) ∧
    (∃ o, get_window_state_macos macEnv pid = .ok o) ∧
    (∀ platform, ∃ o, get_window_state platform winEnv macEnv pid = .ok o) ∧
    ((∀ a w, w ∈ winEnv.windowsAt a → w.visible = true → w.parent = 0 →
        w.title ≠ "" → ¬ inWinTree winEnv pid w.pid) →
      get_window_state_windows winEnv pid = .ok none) ∧
    ((∀ a w, w ∈ macEnv.windowListAt a → w.ownerPid ≠ pid) →
      get_window_state_macos macEnv pid = .ok none) := by
  refine ⟨get_window_state_windows_total winEnv pid,
    get_window_state_macos_total macEnv pid, ?_,
    get_window_state_windows_none winEnv pid,
    get_window_state_macos_none macEnv pid⟩
  intro platform
  unfold get_window_state
  by_cases h1 : (platform == "win32") = true
  · rw [if_pos h1]
    exact get_window_state_windows_total winEnv pid
  · rw [if_neg h1]
    by_cases h2 : (platform == "darwin") = true
    · rw [if_pos h2]
      exact get_window_state_macos_total macEnv pid
    · rw [if_neg h2]
      exact ⟨none, rfl⟩

/-- Closed instance of `capture_polls_and_never_raises` on scenes with no
windows at all. -/
theorem capture_polls_and_never_raises_witness :
    get_window_state_windows winEnvEmpty 42 = .ok none ∧
    get_window_state_macos macEnvEmpty 42 = .ok none ∧
    (∃ o, get_window_state "linux" winEnvEmpty macEnvEmpty 42 = .ok o) :=
  ⟨(capture_polls_and_never_raises winEnvEmpty macEnvEmpty 42).2.2.2.1
      (by intro a w hw; simp [winEnvEmpty] at hw),
   (capture_polls_and_never_raises winEnvEmpty macEnvEmpty 42).2.2.2.2
      (by intro a w hw; simp [macEnvEmpty] at hw),
   (capture_polls_and_never_raises winEnvEmpty macEnvEmpty 42).2.2.1 "linux"⟩

end CtxLauncher
